/-
Verification of the pqb SQL statement-building library (PostgreSQL query
builder).  The definitions below are a shallow embedding of the Rust source:
strings are modelled as lists of Unicode scalar values (`List Char`, matching
Rust `char` sequences), machine integers as `Int`/`Nat` (the rendering logic
never depends on width or overflow), and the SQL writer sink as a list of
emitted fragments.  Panicking constructors are modelled with `Except String`.

Sources embedded (from src/pqb/src/):
  value.rs    — Value, write_value, write_array_value, write_string_value,
                write_escaped_string, should_escape
  types/mod.rs — Iden, is_escaped_iden, write_iden, qualified names,
                write_table_name, write_schema_name, write_table_ref
  expr.rs     — Expr, BinaryOp, UnaryOp, Keyword, SubQueryOp, combinators,
                write_expr, write_binary_expr, write_unary_expr,
                well_known_no_parentheses, well_known_left_associative,
                well_known_high_precedence, Operator classes
  func.rs     — Func, FunctionCall, write_function_call
  query/select.rs — Select, write_select, to_sql, to_values
  query/order.rs  — Order, write_order
  query/with.rs   — With, CommonTableExpression, write_with
  query/insert.rs — Insert, Insert.values
  table/column.rs — ColumnDef constructors (char, varchar, numeric, default,
                generated_as_stored, generated_as_virtual)
-/
import Mathlib

set_option linter.unusedVariables false
set_option linter.unreachableTactic false

namespace Pqb

/-! ## Character helpers (Rust `char` ASCII predicates) -/

/-- Rust `char::is_ascii_control`: U+0000..=U+001F or U+007F. -/
def isAsciiControl (c : Char) : Bool :=
  c.toNat < 0x20 || c.toNat == 0x7F

/-- Rust `is_ascii_alphabetic`: `a-z` or `A-Z`. -/
def isAsciiAlphabetic (c : Char) : Bool :=
  (0x41 ≤ c.toNat && c.toNat ≤ 0x5A) || (0x61 ≤ c.toNat && c.toNat ≤ 0x7A)

/-- Rust `is_ascii_alphanumeric`: `a-z`, `A-Z` or `0-9`. -/
def isAsciiAlphanumeric (c : Char) : Bool :=
  isAsciiAlphabetic c || (0x30 ≤ c.toNat && c.toNat ≤ 0x39)

/-- Decimal rendering of a `Nat`, as Rust `{}` Display for unsigned ints. -/
def natDisplay (n : Nat) : List Char :=
  (Nat.toDigits 10 n)

/-- Decimal rendering of an `Int`, as Rust `{}` Display for signed ints
(minus sign for negatives, plain digits otherwise). -/
def intDisplay (i : Int) : List Char :=
  match i with
  | Int.ofNat n => natDisplay n
  | Int.negSucc n => '-' :: natDisplay (n + 1)

/-- Rust `format!("{:03o}", n)`: octal digits of `n`, left-padded with `0`
to at least three digits. -/
def octal03 (n : Nat) : List Char :=
  let ds := Nat.toDigits 8 n
  List.replicate (3 - ds.length) '0' ++ ds

/-- Stand-in for the text Rust's `{}` Display produces for an `f32`/`f64`
payload.  Lean's `Float.toString` does not match Rust's formatting (for
example `1.500000` against Rust's `1.5`) and Lean's `Float` is opaque to the
kernel, so no theorem in this file asserts anything about the rendered text
of a concrete float; the renderers and the structural theorems treat this
text as an opaque fragment. -/
def floatDisplay (f : Float) : List Char :=
  f.toString.data

/-! ## Value (value.rs) -/

/-- SQL value variants (value.rs `Value`).  Integer payloads are modelled as
`Int`/`Nat`; rendering never depends on the machine width.  The `with-json`
and `with-uuid` feature-gated variants are omitted (features disabled in the
default build). -/
inductive Value where
  | bool (b : Option Bool)
  | tinyInt (i : Option Int)
  | smallInt (i : Option Int)
  | int (i : Option Int)
  | bigInt (i : Option Int)
  | tinyUnsigned (u : Option Nat)
  | smallUnsigned (u : Option Nat)
  | unsigned (u : Option Nat)
  | bigUnsigned (u : Option Nat)
  | float (f : Option Float)
  | double (f : Option Float)
  | string (s : Option (List Char))
  | array (a : Option (List Value))
  deriving Inhabited

/-- value.rs `should_escape`: true iff the string contains one of the named
escapes (backspace, form feed, newline, carriage return, tab, backslash,
single quote, NUL) or any other ASCII control character. -/
def should_escape (s : List Char) : Bool :=
  s.any fun c =>
    if c = '\x08' ∨ c = '\x0C' ∨ c = '\n' ∨ c = '\r' ∨ c = '\t' ∨
       c = '\\' ∨ c = '\'' ∨ c = '\x00' then true
    else if isAsciiControl c then true
    else false

/-- value.rs `write_escaped_string`: per-character escaping body. -/
def write_escaped_string (s : List Char) : List Char :=
  s.flatMap fun c =>
    if c = '\x08' then ['\\', 'b']
    else if c = '\x0C' then ['\\', 'f']
    else if c = '\n' then ['\\', 'n']
    else if c = '\r' then ['\\', 'r']
    else if c = '\t' then ['\\', 't']
    else if c = '\\' then ['\\', '\\']
    else if c = '\'' then ['\\', '\'']
    else if c = '\x00' then ['\\', '0']
    else if isAsciiControl c then '\\' :: octal03 c.toNat
    else [c]

/-- value.rs `write_string_value`: `E'`-prefixed when `should_escape`,
plain `'` otherwise, escaped body, closing `'`. -/
def write_string_value (s : List Char) : List Char :=
  (if should_escape s then ['E', '\''] else ['\'']) ++
    write_escaped_string s ++ ['\'']

mutual

/-- value.rs `write_value`: inline literal rendering of a `Value`. -/
def write_value : Value → List Char
  | .bool none | .tinyInt none | .smallInt none | .int none | .bigInt none
  | .tinyUnsigned none | .smallUnsigned none | .unsigned none
  | .bigUnsigned none | .float none | .double none | .string none
  | .array none => "NULL".data
  | .bool (some b) => if b then "TRUE".data else "FALSE".data
  | .tinyInt (some i) | .smallInt (some i) | .int (some i)
  | .bigInt (some i) => intDisplay i
  | .tinyUnsigned (some u) | .smallUnsigned (some u) | .unsigned (some u)
  | .bigUnsigned (some u) => natDisplay u
  | .float (some f) | .double (some f) => floatDisplay f
  | .string (some s) => write_string_value s
  | .array (some a) => write_array_value a

/-- value.rs `write_array_value`: `'{}'` when empty, otherwise
`ARRAY [` elements joined by `,` and `]`. -/
def write_array_value : List Value → List Char
  | [] => "'\x7b\x7d'".data
  | v :: vs => "ARRAY [".data ++ write_value v ++ write_value_rest vs ++ "]".data

/-- The `for element in it { w.push_str(","); write_value(w, element) }`
tail loop of `write_array_value`. -/
def write_value_rest : List Value → List Char
  | [] => []
  | v :: vs => ',' :: write_value v ++ write_value_rest vs

end

/-! ## Identifier & name codec (types/mod.rs) -/

/-- types/mod.rs `is_escaped_iden`: true iff the identifier needs no escaping
when rendered.  The Rust code walks the UTF-8 bytes; since a byte passes the
ASCII alphabetic/alphanumeric/underscore tests iff it is the single byte of an
ASCII character (continuation and lead bytes of non-ASCII characters are all
≥ 0x80 and fail them), the byte-level scan accepts exactly the same strings as
this character-level scan. -/
def is_escaped_iden (s : List Char) : Bool :=
  match s with
  | [] => true
  | c :: rest =>
    -- can only begin with [a-z_]
    if c == '_' || isAsciiAlphabetic c then
      rest.all fun x => x == '_' || isAsciiAlphanumeric x
    else
      false

/-- types/mod.rs `Iden`: an identifier string plus the precomputed
`escaped` flag. -/
structure Iden where
  name : List Char
  -- if true, the identifier needs not to be escaped when rendered
  escaped : Bool
  deriving Repr, DecidableEq

/-- types/mod.rs `Iden::new` (and `new_static`): the flag is computed by
`is_escaped_iden` at construction; the fields are private in Rust, so every
`Iden` ever built has this shape. -/
def Iden.new (name : List Char) : Iden :=
  { name := name, escaped := is_escaped_iden name }

/-- types/mod.rs `write_iden`: PostgreSQL double-quoting.  Fast path copies
the name verbatim when the precomputed flag is set; otherwise each embedded
`"` is doubled. -/
def write_iden (iden : Iden) : List Char :=
  let quote : Char := '"'
  [quote] ++
    (if iden.escaped then
      iden.name
    else
      iden.name.flatMap fun ch => if ch = quote then [quote, ch] else [ch]) ++
    [quote]

/-- types/mod.rs `DatabaseName`. -/
structure DatabaseName where
  iden : Iden
  deriving Repr, DecidableEq

/-- types/mod.rs `SchemaName`: `(database.)schema`. -/
structure SchemaName where
  database : Option DatabaseName
  iden : Iden
  deriving Repr, DecidableEq

/-- types/mod.rs `TableName`: `(database.)(schema.)table`. -/
structure TableName where
  schema : Option SchemaName
  iden : Iden
  deriving Repr, DecidableEq

/-- types/mod.rs `ColumnName`: `(database.)(schema.)(table.)column`. -/
structure ColumnName where
  table : Option TableName
  iden : Iden
  deriving Repr, DecidableEq

/-- types/mod.rs `ColumnRef`. -/
inductive ColumnRef where
  | column (name : ColumnName)
  | asterisk (table : Option TableName)
  deriving Repr, DecidableEq

/-- types/mod.rs `write_schema_name`. -/
def write_schema_name (s : SchemaName) : List Char :=
  (match s.database with
   | none => []
   | some d => write_iden d.iden ++ ['.']) ++ write_iden s.iden

/-- types/mod.rs `write_table_name`. -/
def write_table_name (t : TableName) : List Char :=
  (match t.schema with
   | none => []
   | some s => write_schema_name s ++ ['.']) ++ write_iden t.iden

/-- expr.rs `write_column_ref`. -/
def write_column_ref (col : ColumnRef) : List Char :=
  match col with
  | .column ⟨tableName, column⟩ =>
    (match tableName with
     | none => []
     | some t => write_table_name t ++ ['.']) ++ write_iden column
  | .asterisk tableName =>
    (match tableName with
     | none => []
     | some t => write_table_name t ++ ['.']) ++ ['*']

/-! ## Operator vocabulary (expr.rs) -/

/-- expr.rs `Keyword`. -/
inductive Keyword where
  | Null
  deriving Repr, DecidableEq

/-- expr.rs `UnaryOp`. -/
inductive UnaryOp where
  | Not
  deriving Repr, DecidableEq

/-- expr.rs `BinaryOp`. -/
inductive BinaryOp where
  | And | Or | Equal | NotEqual | Between | NotBetween
  | Like | NotLike | Is | IsNot | In | NotIn
  | LShift | RShift | Add | Sub | Mul | Div | Mod
  | LessThan | LessThanOrEqual | GreaterThan | GreaterThanOrEqual
  deriving Repr, DecidableEq

/-- expr.rs `SubQueryOp`. -/
inductive SubQueryOp where
  | Exists | Any | Some | All
  deriving Repr, DecidableEq

/-- types/mod.rs `JoinType`. -/
inductive JoinType where
  | LeftJoin | InnerJoin
  deriving Repr, DecidableEq

/-- func.rs `Func`. -/
inductive Func where
  | Max | Min | Sum | Avg | Count | Coalesce
  deriving Repr, DecidableEq

/-- query/order.rs `SortDirection`. -/
inductive SortDirection where
  | Asc | Desc
  deriving Repr, DecidableEq

/-- query/order.rs `NullOrdering`. -/
inductive NullOrdering where
  | First | Last
  deriving Repr, DecidableEq

/-- query/select.rs `RowLevelLockType`. -/
inductive RowLevelLockType where
  | Update | NoKeyUpdate | Share | KeyShare
  deriving Repr, DecidableEq

/-- query/select.rs `RowLevelLockBehavior`. -/
inductive RowLevelLockBehavior where
  | Nowait | SkipLocked
  deriving Repr, DecidableEq

/-- query/select.rs `RowLevelLock`. -/
structure RowLevelLock where
  ty : RowLevelLockType
  tables : List Iden
  behavior : Option RowLevelLockBehavior
  deriving Repr, DecidableEq

/-- query/select.rs `SampleMethod`. -/
inductive SampleMethod where
  | BERNOULLI | SYSTEM
  deriving Repr, DecidableEq

/-- query/select.rs `TableSample` (`percentage` and `repeatable` are `f64`). -/
structure TableSample where
  method : SampleMethod
  percentage : Float
  repeatable : Option Float

/-! ## The expression / statement AST (expr.rs, query/select.rs,
query/order.rs, query/with.rs, types/mod.rs `TableRef`) -/

mutual

/-- expr.rs `Expr`. -/
inductive Expr where
  | column (c : ColumnRef)
  | asterisk
  | keyword (k : Keyword)
  | tuple (es : List Expr)
  | value (v : Value)
  | unary (op : UnaryOp) (e : Expr)
  | binary (lhs : Expr) (op : BinaryOp) (rhs : Expr)
  | functionCall (call : FunctionCall)
  | subQuery (op : Option SubQueryOp) (query : Select)
  | custom (s : List Char)

/-- func.rs `FunctionCall`. -/
inductive FunctionCall where
  | mk (func : Func) (args : List Expr)

/-- query/select.rs `Select` (fields in source order). -/
inductive Select where
  | mk (selects : List SelectExpr) (froms : List TableRef)
       (joins : List JoinExpr) (conditions : List Expr) (groups : List Expr)
       (having : List Expr) (orders : List Order) (limit : Option Nat)
       (offset : Option Nat) (lock : Option RowLevelLock)
       (tableSample : Option TableSample) (withClause : Option With)

/-- query/select.rs `SelectExpr`. -/
inductive SelectExpr where
  | mk (expr : Expr) (aliasIden : Option Iden)

/-- types/mod.rs `TableRef`. -/
inductive TableRef where
  | table (name : TableName) (aliasIden : Option Iden)
  | subQuery (query : Select) (aliasIden : Iden)

/-- query/select.rs `JoinExpr`. -/
inductive JoinExpr where
  | mk (joinType : JoinType) (table : TableRef) (onExpr : Option Expr)

/-- query/order.rs `Order`. -/
inductive Order where
  | mk (expr : Expr) (direction : SortDirection) (nulls : Option NullOrdering)

/-- query/with.rs `With`. -/
inductive With where
  | mk (ctes : List CommonTableExpression)

/-- query/with.rs `CommonTableExpression`. -/
inductive CommonTableExpression where
  | mk (name : Iden) (columns : List Iden) (query : CteQuery)
       (materialized : Option Bool)

/-- query/with.rs `Query` (the CTE source). -/
inductive CteQuery where
  | select (q : Select)
  | values (vs : List (List Value))

end

/-! ## Operator model & precedence predicates (expr.rs) -/

/-- expr.rs `Operator`. -/
inductive Operator where
  | unary (op : UnaryOp)
  | binary (op : BinaryOp)
  deriving Repr, DecidableEq

/-- expr.rs `Operator::is_logical`. -/
def Operator.is_logical : Operator → Bool
  | .unary .Not | .binary .And | .binary .Or => true
  | _ => false

/-- expr.rs `Operator::is_between`. -/
def Operator.is_between : Operator → Bool
  | .binary .Between | .binary .NotBetween => true
  | _ => false

/-- expr.rs `Operator::is_like`. -/
def Operator.is_like : Operator → Bool
  | .binary .Like | .binary .NotLike => true
  | _ => false

/-- expr.rs `Operator::is_in`. -/
def Operator.is_in : Operator → Bool
  | .binary .In | .binary .NotIn => true
  | _ => false

/-- expr.rs `Operator::is_is`. -/
def Operator.is_is : Operator → Bool
  | .binary .Is | .binary .IsNot => true
  | _ => false

/-- expr.rs `Operator::is_shift`. -/
def Operator.is_shift : Operator → Bool
  | .binary .LShift | .binary .RShift => true
  | _ => false

/-- expr.rs `Operator::is_arithmetic`. -/
def Operator.is_arithmetic : Operator → Bool
  | .binary .Mul | .binary .Div | .binary .Mod | .binary .Add
  | .binary .Sub => true
  | _ => false

/-- expr.rs `Operator::is_comparison`. -/
def Operator.is_comparison : Operator → Bool
  | .binary .LessThan | .binary .LessThanOrEqual | .binary .Equal
  | .binary .GreaterThanOrEqual | .binary .GreaterThan
  | .binary .NotEqual => true
  | _ => false

/-- expr.rs `well_known_no_parentheses`: atomic expressions never need
parentheses. -/
def well_known_no_parentheses : Expr → Bool
  | .column _ | .tuple _ | .value _ | .asterisk | .keyword _
  | .functionCall _ | .subQuery _ _ => true
  | _ => false

/-- expr.rs `well_known_left_associative`. -/
def well_known_left_associative : BinaryOp → Bool
  | .And | .Or | .Add | .Sub | .Mul | .Div => true
  | _ => false

/-- expr.rs `well_known_high_precedence`: whether the child expression binds
strictly tighter than the outer operator according to the source's tables. -/
def well_known_high_precedence (expr : Expr) (outer_op : Operator) : Bool :=
  match expr with
  | .binary _ op _ =>
    let inner_op := Operator.binary op
    if inner_op.is_arithmetic || inner_op.is_shift then
      outer_op.is_comparison || outer_op.is_between || outer_op.is_in ||
        outer_op.is_like || outer_op.is_logical
    else if inner_op.is_comparison || inner_op.is_in || inner_op.is_like ||
        inner_op.is_is then
      outer_op.is_logical
    else
      false
  | _ => false

/-- expr.rs `write_unary_op`. -/
def write_unary_op : UnaryOp → List Char
  | .Not => "NOT".data

/-- expr.rs `write_binary_op`. -/
def write_binary_op : BinaryOp → List Char
  | .And => "AND".data
  | .Or => "OR".data
  | .Like => "LIKE".data
  | .NotLike => "NOT LIKE".data
  | .Is => "IS".data
  | .IsNot => "IS NOT".data
  | .In => "IN".data
  | .NotIn => "NOT IN".data
  | .Between => "BETWEEN".data
  | .NotBetween => "NOT BETWEEN".data
  | .Equal => "=".data
  | .NotEqual => "<>".data
  | .LessThan => "<".data
  | .LessThanOrEqual => "<=".data
  | .GreaterThan => ">".data
  | .GreaterThanOrEqual => ">=".data
  | .Add => "+".data
  | .Sub => "-".data
  | .Mul => "*".data
  | .Div => "/".data
  | .Mod => "%".data
  | .LShift => "<<".data
  | .RShift => ">>".data

/-- expr.rs subquery operator keywords inside `write_expr`. -/
def write_subquery_op : SubQueryOp → List Char
  | .Exists => "EXISTS".data
  | .Any => "ANY".data
  | .Some => "SOME".data
  | .All => "ALL".data

/-! ## Writer abstraction (writer.rs)

The trait `SqlWriter` exposes `push_param`, `push_str`, `push_char` (and the
numeric `push_fmt`); the renderers only ever append through it.  A render pass
is therefore embedded as the list of emitted fragments: text fragments, and one
`param` fragment per `push_param` call.  Folding the fragment list through a
concrete strategy recovers that writer's output. -/

/-- One writer emission: a literal text fragment (`push_str`/`push_char`/
`push_fmt`) or a strategy-dependent value parameter (`push_param`). -/
inductive Frag where
  | str (s : List Char)
  | param (v : Value)

/-- Abbreviation used by the renderers below for a single text emission. -/
def fs (s : List Char) : List Frag := [Frag.str s]

/-! ## Non-recursive clause writers (query/select.rs, query/with.rs) -/

/-- query/select.rs: the `TABLESAMPLE` clause fragment of `write_select`. -/
def write_table_sample_clause (ts : TableSample) : List Char :=
  (match ts.method with
   | .BERNOULLI => " TABLESAMPLE BERNOULLI".data
   | .SYSTEM => " TABLESAMPLE SYSTEM".data) ++
  " (".data ++ floatDisplay ts.percentage ++ ")".data ++
  (match ts.repeatable with
   | none => []
   | some r => " REPEATABLE (".data ++ floatDisplay r ++ ")".data)

/-- `", "`-joined identifier list tail (lock tables and CTE columns loops). -/
def write_iden_rest : List Iden → List Char
  | [] => []
  | i :: rest => ", ".data ++ write_iden i ++ write_iden_rest rest

/-- `", "`-joined identifier list (lock tables and CTE columns loops). -/
def write_iden_list : List Iden → List Char
  | [] => []
  | i :: rest => write_iden i ++ write_iden_rest rest

/-- query/select.rs `write_row_level_lock`. -/
def write_row_level_lock (lock : RowLevelLock) : List Char :=
  (match lock.ty with
   | .Update => " FOR UPDATE".data
   | .NoKeyUpdate => " FOR NO KEY UPDATE".data
   | .Share => " FOR SHARE".data
   | .KeyShare => " FOR KEY SHARE".data) ++
  (if lock.tables.isEmpty then [] else " OF ".data ++ write_iden_list lock.tables) ++
  (match lock.behavior with
   | none => []
   | some .Nowait => " NOWAIT".data
   | some .SkipLocked => " SKIP LOCKED".data)

/-- query/with.rs: one `VALUES` row of a CTE (`", "`-joined literals). -/
def write_cte_value_row : List Value → List Char
  | [] => []
  | v :: rest => write_value v ++ (write_cte_value_row_rest rest)
where
  write_cte_value_row_rest : List Value → List Char
  | [] => []
  | v :: rest => ", ".data ++ write_value v ++ write_cte_value_row_rest rest

/-- query/with.rs: the `VALUES (...), (...)` rows of a CTE. -/
def write_cte_value_rows : List (List Value) → List Char
  | [] => []
  | row :: rest =>
    "(".data ++ write_cte_value_row row ++ ")".data ++ write_cte_value_rows_rest rest
where
  write_cte_value_rows_rest : List (List Value) → List Char
  | [] => []
  | row :: rest =>
    ", ".data ++ "(".data ++ write_cte_value_row row ++ ")".data ++
      write_cte_value_rows_rest rest

/-! ## `from_conditions` (expr.rs) -/

/-- expr.rs `Expr::from_conditions`: left-fold the condition list with `AND`
(`Iterator::reduce`), `none` when empty. -/
def from_conditions (conditions : List Expr) : Option Expr :=
  match conditions with
  | [] => none
  | c :: cs => some (cs.foldl (fun lhs rhs => Expr.binary lhs .And rhs) c)

/-! ## Size measures for the render recursion

`write_select` renders the folded `from_conditions` tree, which is not a
structural subterm of the statement, so the recursion is justified by an
explicit size in which a statement weighs its `conditions` and `having`
lists twice. -/

mutual

/-- Size of an expression (atoms weigh 0, each node 1 plus its children). -/
def sizeExpr : Expr → Nat
  | .column _ | .asterisk | .keyword _ | .value _ | .custom _ => 0
  | .tuple es => sizeExprList es + 1
  | .unary _ e => sizeExpr e + 1
  | .binary l _ r => sizeExpr l + sizeExpr r + 1
  | .functionCall c => sizeFunctionCall c
  | .subQuery _ q => sizeSelect q + 1

/-- Size of an expression list (1 per cons cell). -/
def sizeExprList : List Expr → Nat
  | [] => 0
  | e :: es => sizeExpr e + sizeExprList es + 1

/-- Size of a function call. -/
def sizeFunctionCall : FunctionCall → Nat
  | .mk _ args => sizeExprList args + 1

/-- Size of a select statement (conditions/having weighted twice, see above). -/
def sizeSelect : Select → Nat
  | .mk selects froms joins conditions groups having orders _ _ _ _ w =>
    sizeSelectExprList selects + sizeTableRefList froms + sizeJoinList joins +
    2 * sizeExprList conditions + sizeExprList groups +
    2 * sizeExprList having + sizeOrderList orders + sizeOptWith w + 1

/-- Size of a select-expression. -/
def sizeSelectExpr : SelectExpr → Nat
  | .mk e _ => sizeExpr e + 1

/-- Size of a select-expression list. -/
def sizeSelectExprList : List SelectExpr → Nat
  | [] => 0
  | e :: es => sizeSelectExpr e + sizeSelectExprList es + 1

/-- Size of a table reference. -/
def sizeTableRef : TableRef → Nat
  | .table _ _ => 0
  | .subQuery q _ => sizeSelect q + 1

/-- Size of a table reference list. -/
def sizeTableRefList : List TableRef → Nat
  | [] => 0
  | t :: ts => sizeTableRef t + sizeTableRefList ts + 1

/-- Size of an optional join condition. -/
def sizeOptExpr : Option Expr → Nat
  | none => 0
  | some e => sizeExpr e + 1

/-- Size of a join. -/
def sizeJoin : JoinExpr → Nat
  | .mk _ t onE => sizeTableRef t + sizeOptExpr onE + 1

/-- Size of a join list. -/
def sizeJoinList : List JoinExpr → Nat
  | [] => 0
  | j :: js => sizeJoin j + sizeJoinList js + 1

/-- Size of an order item. -/
def sizeOrder : Order → Nat
  | .mk e _ _ => sizeExpr e + 1

/-- Size of an order list. -/
def sizeOrderList : List Order → Nat
  | [] => 0
  | o :: os => sizeOrder o + sizeOrderList os + 1

/-- Size of an optional WITH clause. -/
def sizeOptWith : Option With → Nat
  | none => 0
  | some w => sizeWith w + 1

/-- Size of a WITH clause. -/
def sizeWith : With → Nat
  | .mk ctes => sizeCteList ctes + 1

/-- Size of a common table expression. -/
def sizeCte : CommonTableExpression → Nat
  | .mk _ _ q _ => sizeCteQuery q + 1

/-- Size of a CTE source. -/
def sizeCteQuery : CteQuery → Nat
  | .select q => sizeSelect q + 1
  | .values _ => 0

/-- Size of a CTE list. -/
def sizeCteList : List CommonTableExpression → Nat
  | [] => 0
  | c :: cs => sizeCte c + sizeCteList cs + 1

end

/-- The folded `AND` chain of `from_conditions` weighs the list once plus the
new `AND` nodes, which the double weight in `sizeSelect` dominates. -/
theorem sizeExpr_foldl_and (cs : List Expr) (c : Expr) :
    sizeExpr (cs.foldl (fun lhs rhs => Expr.binary lhs .And rhs) c) =
      sizeExpr c + sizeExprList cs := by
  induction cs generalizing c with
  | nil => simp [sizeExprList]
  | cons x xs ih =>
    simp only [List.foldl_cons, ih, sizeExpr, sizeExprList]
    omega

/-- Size bound used by the termination proof of `write_select`. -/
theorem sizeExpr_of_from_conditions {conditions : List Expr} {c : Expr}
    (h : from_conditions conditions = some c) :
    sizeExpr c < 2 * sizeExprList conditions := by
  unfold from_conditions at h
  cases conditions with
  | nil => simp at h
  | cons c0 cs =>
    simp only [Option.some.injEq] at h
    subst h
    rw [sizeExpr_foldl_and]
    simp [sizeExprList]
    omega

/-! ## The rendering engine (expr.rs, func.rs, query/select.rs,
query/order.rs, query/with.rs) -/

/-- The left-associativity elision test of expr.rs `write_binary_expr`
(`if let Expr::Binary(_, inner_op, _) = lhs && inner_op == op &&
well_known_left_associative(op)`). -/
def left_assoc_same_op (lhs : Expr) (op : BinaryOp) : Bool :=
  match lhs with
  | .binary _ inner_op _ => inner_op == op && well_known_left_associative op
  | _ => false

/-- The `BETWEEN` workaround test of expr.rs `write_binary_expr`
(`let Expr::Binary(_, BinaryOp::And, _) = rhs`). -/
def is_and_pair : Expr → Bool
  | .binary _ .And _ => true
  | _ => false

/-- Modelled from the spec: src's `expr.rs` renders `Expr::Value` through the
crate's value writer, whose richest-revision definition (dispatching to the
writer's `push_param`, per §4.4 "a parameter … whose concrete rendering is
strategy-dependent" and the `SqlWriter::push_param` method of writer.rs) is
not under src/; only the trait declaration and the inline `String` strategy
are.  A `Value` node is one parameter emission. -/
def write_value_param (v : Value) : List Frag := [Frag.param v]

mutual

/-- expr.rs `write_expr`. -/
def write_expr : Expr → List Frag
  | .column col => fs (write_column_ref col)
  | .asterisk => fs ['*']
  | .keyword .Null => fs "NULL".data
  | .tuple exprs => write_tuple exprs
  | .value v => write_value_param v
  | .unary op e => write_unary_expr op e
  | .binary lhs op rhs =>
    match op, rhs with
    | .In, .tuple [] =>
      -- 1 = 2 is always false <=> IN () is always false
      write_binary_expr (.value (.int (some 1))) .Equal (.value (.int (some 2)))
    | .NotIn, .tuple [] =>
      -- 1 = 1 is always true <=> NOT IN () is always true
      write_binary_expr (.value (.int (some 1))) .Equal (.value (.int (some 1)))
    | op1, rhs1 => write_binary_expr lhs op1 rhs1
  | .functionCall call => write_function_call call
  | .subQuery op query =>
    (match op with
     | none => []
     | some o => fs (write_subquery_op o)) ++
    fs ['('] ++ write_select query ++ fs [')']
  | .custom s => fs s
termination_by e => 8 * sizeExpr e + 2
decreasing_by
  all_goals simp_wf
  all_goals try simp only [sizeExpr, sizeExprList, sizeFunctionCall, sizeSelect,
    sizeSelectExpr, sizeSelectExprList, sizeTableRef, sizeTableRefList,
    sizeOptExpr, sizeJoin, sizeJoinList, sizeOrder, sizeOrderList, sizeOptWith,
    sizeWith, sizeCte, sizeCteQuery, sizeCteList]
  all_goals try omega
  all_goals (have hb := sizeExpr_of_from_conditions (by assumption); omega)

/-- expr.rs `write_unary_expr`. -/
def write_unary_expr (op : UnaryOp) (expr : Expr) : List Frag :=
  let paren := !well_known_no_parentheses expr &&
    !well_known_high_precedence expr (.unary op)
  fs (write_unary_op op) ++ fs [' '] ++
    (if paren then fs ['('] else []) ++ write_expr expr ++
    (if paren then fs [')'] else [])
termination_by 8 * (sizeExpr expr + 1) + 1
decreasing_by
  all_goals simp_wf
  all_goals try simp only [sizeExpr, sizeExprList, sizeFunctionCall, sizeSelect,
    sizeSelectExpr, sizeSelectExprList, sizeTableRef, sizeTableRefList,
    sizeOptExpr, sizeJoin, sizeJoinList, sizeOrder, sizeOrderList, sizeOptWith,
    sizeWith, sizeCte, sizeCteQuery, sizeCteList]
  all_goals try omega
  all_goals (have hb := sizeExpr_of_from_conditions (by assumption); omega)

/-- expr.rs `write_binary_expr`, split into its left and right halves. -/
def write_binary_expr (lhs : Expr) (op : BinaryOp) (rhs : Expr) : List Frag :=
  write_binary_lhs lhs op ++
    fs [' '] ++ fs (write_binary_op op) ++ fs [' '] ++
    write_binary_rhs rhs op
termination_by 8 * (sizeExpr lhs + sizeExpr rhs + 1) + 1
decreasing_by
  all_goals simp_wf
  all_goals try simp only [sizeExpr, sizeExprList, sizeFunctionCall, sizeSelect,
    sizeSelectExpr, sizeSelectExprList, sizeTableRef, sizeTableRefList,
    sizeOptExpr, sizeJoin, sizeJoinList, sizeOrder, sizeOrderList, sizeOptWith,
    sizeWith, sizeCte, sizeCteQuery, sizeCteList]
  all_goals try omega
  all_goals (have hb := sizeExpr_of_from_conditions (by assumption); omega)

/-- The left half of expr.rs `write_binary_expr`: parenthesization with the
left-associativity elision. -/
def write_binary_lhs (lhs : Expr) (op : BinaryOp) : List Frag :=
  let left_paren := !well_known_no_parentheses lhs &&
    !well_known_high_precedence lhs (.binary op)
  -- left associativity allow us to drop the left parentheses
  let left_paren := left_paren && !left_assoc_same_op lhs op
  (if left_paren then fs ['('] else []) ++ write_expr lhs ++
    (if left_paren then fs [')'] else [])
termination_by 8 * (sizeExpr lhs + 1)
decreasing_by
  all_goals simp_wf
  all_goals try simp only [sizeExpr, sizeExprList, sizeFunctionCall, sizeSelect,
    sizeSelectExpr, sizeSelectExprList, sizeTableRef, sizeTableRefList,
    sizeOptExpr, sizeJoin, sizeJoinList, sizeOrder, sizeOrderList, sizeOptWith,
    sizeWith, sizeCte, sizeCteQuery, sizeCteList]
  all_goals try omega
  all_goals (have hb := sizeExpr_of_from_conditions (by assumption); omega)

/-- The right half of expr.rs `write_binary_expr`: parenthesization with the
`BETWEEN` nested-`AND` workaround. -/
def write_binary_rhs (rhs : Expr) (op : BinaryOp) : List Frag :=
  let right_paren := !well_known_no_parentheses rhs &&
    !well_known_high_precedence rhs (.binary op)
  -- workaround represent trinary op between as nested binary ops
  let right_paren := right_paren &&
    !((Operator.binary op).is_between && is_and_pair rhs)
  (if right_paren then fs ['('] else []) ++ write_expr rhs ++
    (if right_paren then fs [')'] else [])
termination_by 8 * (sizeExpr rhs + 1)
decreasing_by
  all_goals simp_wf
  all_goals try simp only [sizeExpr, sizeExprList, sizeFunctionCall, sizeSelect,
    sizeSelectExpr, sizeSelectExprList, sizeTableRef, sizeTableRefList,
    sizeOptExpr, sizeJoin, sizeJoinList, sizeOrder, sizeOrderList, sizeOptWith,
    sizeWith, sizeCte, sizeCteQuery, sizeCteList]
  all_goals try omega
  all_goals (have hb := sizeExpr_of_from_conditions (by assumption); omega)

/-- expr.rs `write_tuple`. -/
def write_tuple (exprs : List Expr) : List Frag :=
  fs ['('] ++ write_expr_list exprs ++ fs [')']
termination_by 8 * (sizeExprList exprs + 1) + 1
decreasing_by
  all_goals simp_wf
  all_goals try simp only [sizeExpr, sizeExprList, sizeFunctionCall, sizeSelect,
    sizeSelectExpr, sizeSelectExprList, sizeTableRef, sizeTableRefList,
    sizeOptExpr, sizeJoin, sizeJoinList, sizeOrder, sizeOrderList, sizeOptWith,
    sizeWith, sizeCte, sizeCteQuery, sizeCteList]
  all_goals try omega
  all_goals (have hb := sizeExpr_of_from_conditions (by assumption); omega)

/-- A `", "`-joined expression loop (`write_tuple`, function arguments and
the `GROUP BY` loop share this `if i != 0` shape). -/
def write_expr_list : List Expr → List Frag
  | [] => []
  | e :: rest => write_expr e ++ write_expr_rest rest
termination_by es => 8 * (sizeExprList es + 1)
decreasing_by
  all_goals simp_wf
  all_goals try simp only [sizeExpr, sizeExprList, sizeFunctionCall, sizeSelect,
    sizeSelectExpr, sizeSelectExprList, sizeTableRef, sizeTableRefList,
    sizeOptExpr, sizeJoin, sizeJoinList, sizeOrder, sizeOrderList, sizeOptWith,
    sizeWith, sizeCte, sizeCteQuery, sizeCteList]
  all_goals try omega
  all_goals (have hb := sizeExpr_of_from_conditions (by assumption); omega)

/-- Tail of `write_expr_list`. -/
def write_expr_rest : List Expr → List Frag
  | [] => []
  | e :: rest => fs ", ".data ++ write_expr e ++ write_expr_rest rest
termination_by es => 8 * (sizeExprList es + 1)
decreasing_by
  all_goals simp_wf
  all_goals try simp only [sizeExpr, sizeExprList, sizeFunctionCall, sizeSelect,
    sizeSelectExpr, sizeSelectExprList, sizeTableRef, sizeTableRefList,
    sizeOptExpr, sizeJoin, sizeJoinList, sizeOrder, sizeOrderList, sizeOptWith,
    sizeWith, sizeCte, sizeCteQuery, sizeCteList]
  all_goals try omega
  all_goals (have hb := sizeExpr_of_from_conditions (by assumption); omega)

/-- func.rs `write_function_call`. -/
def write_function_call : FunctionCall → List Frag
  | .mk func args =>
    fs (match func with
      | .Max => "MAX".data
      | .Min => "MIN".data
      | .Sum => "SUM".data
      | .Avg => "AVG".data
      | .Count => "COUNT".data
      | .Coalesce => "COALESCE".data) ++
    fs ['('] ++ write_expr_list args ++ fs [')']
termination_by c => 8 * sizeFunctionCall c + 1
decreasing_by
  all_goals simp_wf
  all_goals try simp only [sizeExpr, sizeExprList, sizeFunctionCall, sizeSelect,
    sizeSelectExpr, sizeSelectExprList, sizeTableRef, sizeTableRefList,
    sizeOptExpr, sizeJoin, sizeJoinList, sizeOrder, sizeOrderList, sizeOptWith,
    sizeWith, sizeCte, sizeCteQuery, sizeCteList]
  all_goals try omega
  all_goals (have hb := sizeExpr_of_from_conditions (by assumption); omega)

/-- query/select.rs `write_select`. -/
def write_select : Select → List Frag
  | .mk selects froms joins conditions groups having orders limit offset
      lock tableSample withClause =>
    (match withClause with
     | none => []
     | some w => write_with w ++ fs [' ']) ++
    fs "SELECT ".data ++
    write_select_expr_list selects ++
    write_from_list froms ++
    (match tableSample with
     | none => []
     | some ts => fs (write_table_sample_clause ts)) ++
    write_join_list joins ++
    (match h1 : from_conditions conditions with
     | none => []
     | some condition => fs " WHERE ".data ++ write_expr condition) ++
    (if groups.isEmpty then []
     else fs " GROUP BY ".data ++ write_expr_list groups) ++
    (match h2 : from_conditions having with
     | none => []
     | some havingCond => fs " HAVING ".data ++ write_expr havingCond) ++
    (if orders.isEmpty then []
     else fs " ORDER BY ".data ++ write_order_list orders) ++
    (match limit with
     | none => []
     | some n => fs (" LIMIT ".data ++ natDisplay n)) ++
    (match offset with
     | none => []
     | some n => fs (" OFFSET ".data ++ natDisplay n)) ++
    (match lock with
     | none => []
     | some l => fs (write_row_level_lock l))
termination_by sel => 8 * sizeSelect sel + 6
decreasing_by
  all_goals simp_wf
  all_goals try simp only [sizeExpr, sizeExprList, sizeFunctionCall, sizeSelect,
    sizeSelectExpr, sizeSelectExprList, sizeTableRef, sizeTableRefList,
    sizeOptExpr, sizeJoin, sizeJoinList, sizeOrder, sizeOrderList, sizeOptWith,
    sizeWith, sizeCte, sizeCteQuery, sizeCteList]
  all_goals try omega
  all_goals (have hb := sizeExpr_of_from_conditions (by assumption); omega)

/-- query/select.rs `write_select_expr` loop (`", "`-joined). -/
def write_select_expr_list : List SelectExpr → List Frag
  | [] => []
  | se :: rest => write_select_expr se ++ write_select_expr_rest rest
termination_by ses => 8 * (sizeSelectExprList ses + 1)
decreasing_by
  all_goals simp_wf
  all_goals try simp only [sizeExpr, sizeExprList, sizeFunctionCall, sizeSelect,
    sizeSelectExpr, sizeSelectExprList, sizeTableRef, sizeTableRefList,
    sizeOptExpr, sizeJoin, sizeJoinList, sizeOrder, sizeOrderList, sizeOptWith,
    sizeWith, sizeCte, sizeCteQuery, sizeCteList]
  all_goals try omega
  all_goals (have hb := sizeExpr_of_from_conditions (by assumption); omega)

/-- Tail of `write_select_expr_list`. -/
def write_select_expr_rest : List SelectExpr → List Frag
  | [] => []
  | se :: rest => fs ", ".data ++ write_select_expr se ++ write_select_expr_rest rest
termination_by ses => 8 * (sizeSelectExprList ses + 1)
decreasing_by
  all_goals simp_wf
  all_goals try simp only [sizeExpr, sizeExprList, sizeFunctionCall, sizeSelect,
    sizeSelectExpr, sizeSelectExprList, sizeTableRef, sizeTableRefList,
    sizeOptExpr, sizeJoin, sizeJoinList, sizeOrder, sizeOrderList, sizeOptWith,
    sizeWith, sizeCte, sizeCteQuery, sizeCteList]
  all_goals try omega
  all_goals (have hb := sizeExpr_of_from_conditions (by assumption); omega)

/-- query/select.rs `write_select_expr`. -/
def write_select_expr : SelectExpr → List Frag
  | .mk expr aliasIden =>
    write_expr expr ++
      (match aliasIden with
       | none => []
       | some a => fs " AS ".data ++ fs (write_iden a))
termination_by se => 8 * sizeSelectExpr se + 1
decreasing_by
  all_goals simp_wf
  all_goals try simp only [sizeExpr, sizeExprList, sizeFunctionCall, sizeSelect,
    sizeSelectExpr, sizeSelectExprList, sizeTableRef, sizeTableRefList,
    sizeOptExpr, sizeJoin, sizeJoinList, sizeOrder, sizeOrderList, sizeOptWith,
    sizeWith, sizeCte, sizeCteQuery, sizeCteList]
  all_goals try omega
  all_goals (have hb := sizeExpr_of_from_conditions (by assumption); omega)

/-- query/select.rs `FROM` loop (`" FROM "` then `", "`-joined). -/
def write_from_list : List TableRef → List Frag
  | [] => []
  | t :: rest => fs " FROM ".data ++ write_table_ref t ++ write_from_rest rest
termination_by ts => 8 * (sizeTableRefList ts + 1)
decreasing_by
  all_goals simp_wf
  all_goals try simp only [sizeExpr, sizeExprList, sizeFunctionCall, sizeSelect,
    sizeSelectExpr, sizeSelectExprList, sizeTableRef, sizeTableRefList,
    sizeOptExpr, sizeJoin, sizeJoinList, sizeOrder, sizeOrderList, sizeOptWith,
    sizeWith, sizeCte, sizeCteQuery, sizeCteList]
  all_goals try omega
  all_goals (have hb := sizeExpr_of_from_conditions (by assumption); omega)

/-- Tail of `write_from_list`. -/
def write_from_rest : List TableRef → List Frag
  | [] => []
  | t :: rest => fs ", ".data ++ write_table_ref t ++ write_from_rest rest
termination_by ts => 8 * (sizeTableRefList ts + 1)
decreasing_by
  all_goals simp_wf
  all_goals try simp only [sizeExpr, sizeExprList, sizeFunctionCall, sizeSelect,
    sizeSelectExpr, sizeSelectExprList, sizeTableRef, sizeTableRefList,
    sizeOptExpr, sizeJoin, sizeJoinList, sizeOrder, sizeOrderList, sizeOptWith,
    sizeWith, sizeCte, sizeCteQuery, sizeCteList]
  all_goals try omega
  all_goals (have hb := sizeExpr_of_from_conditions (by assumption); omega)

/-- types/mod.rs `write_table_ref`. -/
def write_table_ref : TableRef → List Frag
  | .table tableName aliasIden =>
    fs (write_table_name tableName) ++
      (match aliasIden with
       | none => []
       | some a => fs " AS ".data ++ fs (write_iden a))
  | .subQuery query aliasIden =>
    fs ['('] ++ write_select query ++ fs [')'] ++
      fs " AS ".data ++ fs (write_iden aliasIden)
termination_by t => 8 * sizeTableRef t + 1
decreasing_by
  all_goals simp_wf
  all_goals try simp only [sizeExpr, sizeExprList, sizeFunctionCall, sizeSelect,
    sizeSelectExpr, sizeSelectExprList, sizeTableRef, sizeTableRefList,
    sizeOptExpr, sizeJoin, sizeJoinList, sizeOrder, sizeOrderList, sizeOptWith,
    sizeWith, sizeCte, sizeCteQuery, sizeCteList]
  all_goals try omega
  all_goals (have hb := sizeExpr_of_from_conditions (by assumption); omega)

/-- query/select.rs join loop. -/
def write_join_list : List JoinExpr → List Frag
  | [] => []
  | j :: rest => write_join j ++ write_join_list rest
termination_by js => 8 * (sizeJoinList js + 1)
decreasing_by
  all_goals simp_wf
  all_goals try simp only [sizeExpr, sizeExprList, sizeFunctionCall, sizeSelect,
    sizeSelectExpr, sizeSelectExprList, sizeTableRef, sizeTableRefList,
    sizeOptExpr, sizeJoin, sizeJoinList, sizeOrder, sizeOrderList, sizeOptWith,
    sizeWith, sizeCte, sizeCteQuery, sizeCteList]
  all_goals try omega
  all_goals (have hb := sizeExpr_of_from_conditions (by assumption); omega)

/-- One join of query/select.rs `write_select`. -/
def write_join : JoinExpr → List Frag
  | .mk joinType tableRef onExpr =>
    fs (match joinType with
      | .LeftJoin => " LEFT JOIN ".data
      | .InnerJoin => " INNER JOIN ".data) ++
    write_table_ref tableRef ++
    (match onExpr with
     | none => []
     | some onE => fs " ON ".data ++ write_expr onE)
termination_by j => 8 * sizeJoin j + 1
decreasing_by
  all_goals simp_wf
  all_goals try simp only [sizeExpr, sizeExprList, sizeFunctionCall, sizeSelect,
    sizeSelectExpr, sizeSelectExprList, sizeTableRef, sizeTableRefList,
    sizeOptExpr, sizeJoin, sizeJoinList, sizeOrder, sizeOrderList, sizeOptWith,
    sizeWith, sizeCte, sizeCteQuery, sizeCteList]
  all_goals try omega
  all_goals (have hb := sizeExpr_of_from_conditions (by assumption); omega)

/-- query/select.rs `ORDER BY` loop (`", "`-joined). -/
def write_order_list : List Order → List Frag
  | [] => []
  | o :: rest => write_order o ++ write_order_rest rest
termination_by os => 8 * (sizeOrderList os + 1)
decreasing_by
  all_goals simp_wf
  all_goals try simp only [sizeExpr, sizeExprList, sizeFunctionCall, sizeSelect,
    sizeSelectExpr, sizeSelectExprList, sizeTableRef, sizeTableRefList,
    sizeOptExpr, sizeJoin, sizeJoinList, sizeOrder, sizeOrderList, sizeOptWith,
    sizeWith, sizeCte, sizeCteQuery, sizeCteList]
  all_goals try omega
  all_goals (have hb := sizeExpr_of_from_conditions (by assumption); omega)

/-- Tail of `write_order_list`. -/
def write_order_rest : List Order → List Frag
  | [] => []
  | o :: rest => fs ", ".data ++ write_order o ++ write_order_rest rest
termination_by os => 8 * (sizeOrderList os + 1)
decreasing_by
  all_goals simp_wf
  all_goals try simp only [sizeExpr, sizeExprList, sizeFunctionCall, sizeSelect,
    sizeSelectExpr, sizeSelectExprList, sizeTableRef, sizeTableRefList,
    sizeOptExpr, sizeJoin, sizeJoinList, sizeOrder, sizeOrderList, sizeOptWith,
    sizeWith, sizeCte, sizeCteQuery, sizeCteList]
  all_goals try omega
  all_goals (have hb := sizeExpr_of_from_conditions (by assumption); omega)

/-- query/order.rs `write_order`. -/
def write_order : Order → List Frag
  | .mk expr direction nulls =>
    write_expr expr ++
    fs (match direction with
      | .Asc => " ASC".data
      | .Desc => " DESC".data) ++
    (match nulls with
     | none => []
     | some .First => fs " NULLS FIRST".data
     | some .Last => fs " NULLS LAST".data)
termination_by o => 8 * sizeOrder o + 1
decreasing_by
  all_goals simp_wf
  all_goals try simp only [sizeExpr, sizeExprList, sizeFunctionCall, sizeSelect,
    sizeSelectExpr, sizeSelectExprList, sizeTableRef, sizeTableRefList,
    sizeOptExpr, sizeJoin, sizeJoinList, sizeOrder, sizeOrderList, sizeOptWith,
    sizeWith, sizeCte, sizeCteQuery, sizeCteList]
  all_goals try omega
  all_goals (have hb := sizeExpr_of_from_conditions (by assumption); omega)

/-- query/with.rs `write_with`. -/
def write_with : With → List Frag
  | .mk ctes => fs "WITH ".data ++ write_cte_list ctes
termination_by w => 8 * sizeWith w + 1
decreasing_by
  all_goals simp_wf
  all_goals try simp only [sizeExpr, sizeExprList, sizeFunctionCall, sizeSelect,
    sizeSelectExpr, sizeSelectExprList, sizeTableRef, sizeTableRefList,
    sizeOptExpr, sizeJoin, sizeJoinList, sizeOrder, sizeOrderList, sizeOptWith,
    sizeWith, sizeCte, sizeCteQuery, sizeCteList]
  all_goals try omega
  all_goals (have hb := sizeExpr_of_from_conditions (by assumption); omega)

/-- CTE loop of query/with.rs `write_with` (`", "`-joined). -/
def write_cte_list : List CommonTableExpression → List Frag
  | [] => []
  | c :: rest => write_cte c ++ write_cte_rest rest
termination_by cs => 8 * (sizeCteList cs + 1)
decreasing_by
  all_goals simp_wf
  all_goals try simp only [sizeExpr, sizeExprList, sizeFunctionCall, sizeSelect,
    sizeSelectExpr, sizeSelectExprList, sizeTableRef, sizeTableRefList,
    sizeOptExpr, sizeJoin, sizeJoinList, sizeOrder, sizeOrderList, sizeOptWith,
    sizeWith, sizeCte, sizeCteQuery, sizeCteList]
  all_goals try omega
  all_goals (have hb := sizeExpr_of_from_conditions (by assumption); omega)

/-- Tail of `write_cte_list`. -/
def write_cte_rest : List CommonTableExpression → List Frag
  | [] => []
  | c :: rest => fs ", ".data ++ write_cte c ++ write_cte_rest rest
termination_by cs => 8 * (sizeCteList cs + 1)
decreasing_by
  all_goals simp_wf
  all_goals try simp only [sizeExpr, sizeExprList, sizeFunctionCall, sizeSelect,
    sizeSelectExpr, sizeSelectExprList, sizeTableRef, sizeTableRefList,
    sizeOptExpr, sizeJoin, sizeJoinList, sizeOrder, sizeOrderList, sizeOptWith,
    sizeWith, sizeCte, sizeCteQuery, sizeCteList]
  all_goals try omega
  all_goals (have hb := sizeExpr_of_from_conditions (by assumption); omega)

/-- One CTE of query/with.rs `write_with`. -/
def write_cte : CommonTableExpression → List Frag
  | .mk name columns query materialized =>
    fs (write_iden name) ++
    (if columns.isEmpty then fs [' ']
     else fs " (".data ++ fs (write_iden_list columns) ++ fs ") ".data) ++
    (match materialized with
     | none => fs " AS ".data
     | some true => fs " AS MATERIALIZED ".data
     | some false => fs " AS NOT MATERIALIZED ".data) ++
    (match query with
     | .select sel => fs ['('] ++ write_select sel ++ fs [')']
     | .values vs => fs "VALUES ".data ++ fs (write_cte_value_rows vs))
termination_by c => 8 * sizeCte c + 1
decreasing_by
  all_goals simp_wf
  all_goals try simp only [sizeExpr, sizeExprList, sizeFunctionCall, sizeSelect,
    sizeSelectExpr, sizeSelectExprList, sizeTableRef, sizeTableRefList,
    sizeOptExpr, sizeJoin, sizeJoinList, sizeOrder, sizeOrderList, sizeOptWith,
    sizeWith, sizeCte, sizeCteQuery, sizeCteList]
  all_goals try omega
  all_goals (have hb := sizeExpr_of_from_conditions (by assumption); omega)

end
/-! ## Expression constructors & combinators (expr.rs) -/

/-- expr.rs `Expr::value` (modulo the `Into<Value>` conversion, applied by
the caller here). -/
def Expr.valueOf (v : Value) : Expr := Expr.value v

/-- expr.rs `Expr::column` (modulo the `IntoColumnRef` conversion). -/
def Expr.columnOf (c : ColumnRef) : Expr := Expr.column c

/-- expr.rs `Expr::binary`. -/
def Expr.mkBinary (self : Expr) (op : BinaryOp) (rhs : Expr) : Expr :=
  Expr.binary self op rhs

/-- expr.rs `Expr::and`. -/
def Expr.and (self rhs : Expr) : Expr := self.mkBinary .And rhs

/-- expr.rs `Expr::or`. -/
def Expr.or (self rhs : Expr) : Expr := self.mkBinary .Or rhs

/-- expr.rs `Expr::eq`. -/
def Expr.eq (self rhs : Expr) : Expr := self.mkBinary .Equal rhs

/-- expr.rs `Expr::ne`. -/
def Expr.ne (self rhs : Expr) : Expr := self.mkBinary .NotEqual rhs

/-- expr.rs `Expr::gt`. -/
def Expr.gt (self rhs : Expr) : Expr := self.mkBinary .GreaterThan rhs

/-- expr.rs `Expr::gte`. -/
def Expr.gte (self rhs : Expr) : Expr := self.mkBinary .GreaterThanOrEqual rhs

/-- expr.rs `Expr::lt`. -/
def Expr.lt (self rhs : Expr) : Expr := self.mkBinary .LessThan rhs

/-- expr.rs `Expr::lte`. -/
def Expr.lte (self rhs : Expr) : Expr := self.mkBinary .LessThanOrEqual rhs

/-- expr.rs `Expr::like`. -/
def Expr.like (self pattern : Expr) : Expr := self.mkBinary .Like pattern

/-- expr.rs `Expr::add`. -/
def Expr.addE (self rhs : Expr) : Expr := self.mkBinary .Add rhs

/-- expr.rs `Expr::sub`. -/
def Expr.subE (self rhs : Expr) : Expr := self.mkBinary .Sub rhs

/-- expr.rs `Expr::mul`. -/
def Expr.mulE (self rhs : Expr) : Expr := self.mkBinary .Mul rhs

/-- expr.rs `Expr::div`. -/
def Expr.divE (self rhs : Expr) : Expr := self.mkBinary .Div rhs

/-- expr.rs `Expr::is_null`. -/
def Expr.is_null (self : Expr) : Expr :=
  self.mkBinary .Is (Expr.keyword .Null)

/-- expr.rs `Expr::is_not_null`. -/
def Expr.is_not_null (self : Expr) : Expr :=
  self.mkBinary .IsNot (Expr.keyword .Null)

/-- expr.rs `Expr::between`: the endpoints are packed as a nested `AND`
binary node. -/
def Expr.between (self a b : Expr) : Expr :=
  self.mkBinary .Between (Expr.binary a .And b)

/-- expr.rs `Expr::not_between`. -/
def Expr.not_between (self a b : Expr) : Expr :=
  self.mkBinary .NotBetween (Expr.binary a .And b)

/-- expr.rs `Expr::is_in`: wraps the operands in a `Tuple`. -/
def Expr.is_in (self : Expr) (v : List Expr) : Expr :=
  self.mkBinary .In (Expr.tuple v)

/-- expr.rs `Expr::is_not_in`. -/
def Expr.is_not_in (self : Expr) (v : List Expr) : Expr :=
  self.mkBinary .NotIn (Expr.tuple v)

/-- expr.rs `Expr::in_subquery`. -/
def Expr.in_subquery (self : Expr) (query : Select) : Expr :=
  self.mkBinary .In (Expr.subQuery none query)

/-- expr.rs `Expr::unary`. -/
def Expr.mkUnary (self : Expr) (op : UnaryOp) : Expr := Expr.unary op self

/-- expr.rs `Expr::not`. -/
def Expr.notE (self : Expr) : Expr := self.mkUnary .Not

/-! ## Rendering strategies (writer.rs; `SqlWriterValues` modelled from the
spec) -/

/-- Strategy A (inline literals, writer.rs `impl SqlWriter for String`):
a parameter is immediately rendered as its literal SQL text. -/
def render_frag_inline : Frag -> List Char
  | .str s => s
  | .param v => write_value v

/-- Folding a fragment stream through the inline strategy. -/
def render_inline (frs : List Frag) : List Char :=
  frs.flatMap render_frag_inline

/-- query/select.rs `Select::to_sql`. -/
def Select.to_sql (self : Select) : List Char :=
  render_inline (write_select self)

/-- Modelled from the spec: the parameterized writer `SqlWriterValues`
(referenced by every `to_values` under src/ but defined outside it).  Spec
4.4 Strategy B: `push_param` appends the positional placeholder `$N`
(strictly increasing, one per call in emission order) and pushes the value
onto a side list; `push_str`/`push_char` append text. -/
structure SqlWriterValues where
  sql : List Char
  counter : Nat
  params : List Value

/-- Modelled from the spec: a fresh parameterized writer. -/
def SqlWriterValues.new : SqlWriterValues :=
  { sql := [], counter := 0, params := [] }

/-- Modelled from the spec: `push_param` for the parameterized writer. -/
def SqlWriterValues.push_param (w : SqlWriterValues) (v : Value) : SqlWriterValues :=
  { sql := w.sql ++ '$' :: natDisplay (w.counter + 1)
    counter := w.counter + 1
    params := w.params ++ [v] }

/-- One writer emission under Strategy B. -/
def SqlWriterValues.push_frag (w : SqlWriterValues) : Frag -> SqlWriterValues
  | .str s => { w with sql := w.sql ++ s }
  | .param v => w.push_param v

/-- Folding a fragment stream through the parameterized strategy. -/
def render_values (frs : List Frag) : SqlWriterValues :=
  frs.foldl SqlWriterValues.push_frag SqlWriterValues.new

/-- query/select.rs `Select::to_values`. -/
def Select.to_values (self : Select) : SqlWriterValues :=
  render_values (write_select self)

/-- `SqlWriterValues::into_parts` (tests use it to split text and values). -/
def SqlWriterValues.into_parts (w : SqlWriterValues) : List Char × List Value :=
  (w.sql, w.params)

/-! ## Insert (query/insert.rs) -/

/-- query/returning.rs `Returning`. -/
inductive Returning where
  | all
  | exprs (es : List Expr)

/-- query/insert.rs `InsertValueSource`. -/
inductive InsertValueSource where
  | values (vs : List (List Expr))
  | select (q : Select)

/-- query/insert.rs `Insert`. -/
structure Insert where
  table : Option TableRef
  columns : List Iden
  source : Option InsertValueSource
  defaults : Option Nat
  returning : Option Returning

/-- query/insert.rs `Insert::new` (`Default`). -/
def Insert.new : Insert :=
  { table := none, columns := [], source := none,
    defaults := none, returning := none }

/-- query/insert.rs `Insert::columns`. -/
def Insert.columnsAdd (self : Insert) (cols : List Iden) : Insert :=
  { self with columns := self.columns ++ cols }

/-- query/select.rs `Select::columns_len`. -/
def Select.columns_len : Select → Nat
  | .mk selects _ _ _ _ _ _ _ _ _ _ _ => selects.length

/-- query/insert.rs `Insert::values`: the `assert_eq!(values.len(),
self.columns.len())` panic is modelled as `Except.error`. -/
def Insert.values (self : Insert) (values : List Expr) : Except String Insert :=
  if values.length = self.columns.length then
    .ok (if values.isEmpty then self
      else match self.source with
        | some (.values vs) =>
          { self with source := some (.values (vs ++ [values])) }
        | _ => { self with source := some (.values [values]) })
  else
    .error "assertion failed: values.len() == self.columns.len()"

/-- query/insert.rs `Insert::select_from`: the arity assertion is modelled
as `Except.error`. -/
def Insert.select_from (self : Insert) (select : Select) : Except String Insert :=
  if select.columns_len = self.columns.length then
    .ok { self with source := some (.select select) }
  else
    .error "assertion failed: select.columns_len() == self.columns.len()"

/-! ## Column definitions (table/column.rs) -/

/-- table/column.rs `ColumnType`. -/
inductive ColumnType where
  | Char (size : Nat)
  | Varchar (size : Nat)
  | Text
  | Bytea
  | SmallInt
  | Int
  | BigInt
  | Float
  | Double
  | Numeric (ps : Option (Int × Int))
  | Int4Range
  | Int8Range
  | NumRange
  | TsRange
  | TsTzRange
  | DateRange
  | SmallSerial
  | Serial
  | BigSerial
  | DateTime
  | Timestamp
  | TimestampWithTimeZone
  | Time
  | Date
  | Boolean
  | Json
  | JsonBinary
  | Uuid
  | Array (ty : ColumnType)

/-- table/column.rs `GeneratedColumnKind`. -/
inductive GeneratedColumnKind where
  | Stored
  | Virtual
  deriving Repr, DecidableEq

/-- table/column.rs `GeneratedColumn`. -/
structure GeneratedColumn where
  expr : Expr
  kind : GeneratedColumnKind

/-- table/column.rs `ColumnSpec` (with its `Default`). -/
structure ColumnSpec where
  nullable : Option Bool := none
  default : Option Expr := none
  generated : Option GeneratedColumn := none
  unique : Bool := false
  primary_key : Bool := false

/-- table/column.rs `ColumnDef`. -/
structure ColumnDef where
  name : Iden
  ty : Option ColumnType
  spec : ColumnSpec

/-- table/column.rs `ColumnDef::new`. -/
def ColumnDef.new (name : Iden) : ColumnDef :=
  { name := name, ty := none, spec := {} }

/-- table/column.rs `ColumnDef::default`: panics (here `Except.error`) when
the column is already generated. -/
def ColumnDef.default (self : ColumnDef) (expr : Expr) : Except String ColumnDef :=
  if (self.spec.generated).isSome then
    .error "A generated column cannot have a default value."
  else
    .ok { self with spec := { self.spec with default := some expr } }

/-- table/column.rs `ColumnDef::char`: panics (here `Except.error`) when the
size is zero.  The `u32` size is modelled as `Nat`. -/
def ColumnDef.char (self : ColumnDef) (size : Nat) : Except String ColumnDef :=
  if size = 0 then
    .error "Character type size must be greater than zero."
  else
    .ok { self with ty := some (.Char size) }

/-- table/column.rs `ColumnDef::varchar`: panics (here `Except.error`) when
the size is zero. -/
def ColumnDef.varchar (self : ColumnDef) (size : Nat) : Except String ColumnDef :=
  if size = 0 then
    .error "Character type size must be greater than zero."
  else
    .ok { self with ty := some (.Varchar size) }

/-- table/column.rs `ColumnDef::numeric`: panics (here `Except.error`) when
scale exceeds precision or precision exceeds 1000.  The `i32` arguments are
modelled as `Int`. -/
def ColumnDef.numeric (self : ColumnDef) (precision scale : Int) :
    Except String ColumnDef :=
  if scale > precision then
    .error "Numeric scale cannot be greater than precision."
  else if precision > 1000 then
    .error "Numeric precision cannot be greater than 1000."
  else
    .ok { self with ty := some (.Numeric (some (precision, scale))) }

/-- table/column.rs `ColumnDef::generated_as_stored`: panics (here
`Except.error`) when the column already has a default value. -/
def ColumnDef.generated_as_stored (self : ColumnDef) (expr : Expr) :
    Except String ColumnDef :=
  if (self.spec.default).isSome then
    .error "A generated column cannot have a default value."
  else
    .ok { self with
      spec := { self.spec with
        generated := some { expr := expr, kind := .Stored } } }

/-- table/column.rs `ColumnDef::generated_as_virtual`: panics (here
`Except.error`) when the column already has a default value. -/
def ColumnDef.generated_as_virtual (self : ColumnDef) (expr : Expr) :
    Except String ColumnDef :=
  if (self.spec.default).isSome then
    .error "A generated column cannot have a default value."
  else
    .ok { self with
      spec := { self.spec with
        generated := some { expr := expr, kind := .Virtual } } }

/-! # Shared helpers for the verification theorems -/

/-- Inline (literal) rendering of a bare expression, as a statement writer
would embed it. -/
def expr_inline (e : Expr) : List Char :=
  render_inline (write_expr e)

/-- The always-scanning identifier body: every `"` doubled. -/
def scan_quote_chars (name : List Char) : List Char :=
  name.flatMap fun ch => if ch = '"' then ['"', ch] else [ch]

/-- A bare-identifier character is never a double quote. -/
theorem no_quote_of_word_char {c : Char}
    (h : (c == '_' || isAsciiAlphanumeric c) = true) : c ≠ '"' := by
  intro hc
  subst hc
  exact absurd h (by decide)

/-- Strings accepted by `is_escaped_iden` contain no double quote. -/
theorem is_escaped_iden_no_quote {s : List Char}
    (h : is_escaped_iden s = true) : ∀ c ∈ s, c ≠ '"' := by
  cases s with
  | nil => intro c hc; exact absurd hc (List.not_mem_nil c)
  | cons c rest =>
    unfold is_escaped_iden at h
    by_cases hc : (c == '_' || isAsciiAlphabetic c) = true
    · simp only [hc, if_pos] at h
      intro x hx
      rcases List.mem_cons.mp hx with hx | hx
      · subst hx
        refine no_quote_of_word_char ?_
        rcases Bool.or_eq_true_iff.mp hc with h1 | h1
        · exact Bool.or_eq_true_iff.mpr (Or.inl h1)
        · exact Bool.or_eq_true_iff.mpr
            (Or.inr (Bool.or_eq_true_iff.mpr (Or.inl h1)))
      · rw [List.all_eq_true] at h
        exact no_quote_of_word_char (h x hx)
    · rw [Bool.not_eq_true] at hc
      simp only [hc] at h
      simp at h

/-- Quote doubling is the identity on quote-free strings. -/
theorem scan_quote_chars_of_no_quote {s : List Char}
    (h : ∀ c ∈ s, c ≠ '"') : scan_quote_chars s = s := by
  induction s with
  | nil => rfl
  | cons c rest ih =>
    simp only [scan_quote_chars, List.flatMap_cons]
    rw [if_neg (h c (List.mem_cons_self c rest))]
    have hrest := ih fun x hx => h x (List.mem_cons_of_mem c hx)
    simp only [scan_quote_chars] at hrest
    rw [hrest]
    rfl

/-! # C10 — identifier quoting, fast path vs scanning path -/

/-- C10: `write_iden` emits exactly one opening double quote, the name with
every embedded `"` doubled, and one closing double quote — for every `Iden`
produced by `Iden::new`; in particular the fast path taken when the
precomputed flag is set is byte-identical to the always-scanning path,
because the flag only holds for quote-free names (and both paths yield `""`
for the empty name). -/
theorem c10_write_iden_fast_path_eq_scan (name : List Char) :
    write_iden (Iden.new name) = '"' :: scan_quote_chars name ++ ['"'] := by
  unfold write_iden Iden.new
  by_cases h : is_escaped_iden name = true
  · simp only [h, if_pos]
    rw [scan_quote_chars_of_no_quote (is_escaped_iden_no_quote h)]
    rfl
  · rw [Bool.not_eq_true] at h
    simp only [h, Bool.false_eq_true, if_false]
    rfl

/-! # C7 — the precomputed bare-identifier flag -/

/-- The bare/safe-identifier predicate exactly as claim C7 words it:
nonempty, first character an ASCII letter or underscore, remaining
characters ASCII letters, digits or underscores. -/
def claimed_bare_iden (s : List Char) : Bool :=
  match s with
  | [] => false
  | c :: rest =>
    (c == '_' || isAsciiAlphabetic c) &&
      rest.all fun x => x == '_' || isAsciiAlphanumeric x

/-- C7 counterexample: on the empty string the precomputed flag is `true`,
while the claim ("true if and only if s is nonempty, …") requires `false`. -/
theorem c7_counterexample :
    is_escaped_iden [] = true ∧ claimed_bare_iden [] = false := by
  exact ⟨rfl, rfl⟩

/-- C7 amended: the precomputed flag is true iff the string is empty, or its
first character is an ASCII letter or underscore and every remaining
character is an ASCII letter, digit or underscore. -/
theorem c7_amended_iden_flag (s : List Char) :
    is_escaped_iden s = (s.isEmpty || claimed_bare_iden s) := by
  cases s with
  | nil => rfl
  | cons c rest =>
    unfold is_escaped_iden claimed_bare_iden
    simp only [List.isEmpty_cons, Bool.false_or]
    by_cases h : (c == '_' || isAsciiAlphabetic c) = true
    · simp [h]
    · rw [Bool.not_eq_true] at h
      simp [h]

/-! # C2 — string-literal escaping is not injective -/

/-- C2: the escaping of value.rs is total and deterministic, but it is not
injective: the three-character string `NUL, '0', '3'` and the one-character
string `U+0003` both escape to `E'\003'`, so no inverse of the escaping
rules can recover both originals (PostgreSQL's escape-string parser reads
`\003` as the single octal byte 3).  This refutes the round-trip clause of
the claim at a concrete input. -/
theorem c2_escape_collision :
    write_string_value ['\x00', '0', '3'] = write_string_value ['\x03'] ∧
      (['\x00', '0', '3'] : List Char) ≠ ['\x03'] := by
  constructor
  · rfl
  · decide

/-! # Inline literal rendering of `Value` -/

/-- `write_array_value` separates the elements of a non-empty array with a
bare `","` — not the `", "` every other list join in the crate uses:
`ARRAY [1,2]`, not `ARRAY [1, 2]`. -/
theorem write_array_value_bare_comma_separator :
    write_value (.array (some [.int (some 1), .int (some 2)])) =
        "ARRAY [1,2]".data ∧
      write_value (.array (some [.int (some 1), .int (some 2)])) ≠
        "ARRAY [1, 2]".data := by
  constructor
  · simp only [write_value, write_array_value, write_value_rest]
    decide
  · simp only [write_value, write_array_value, write_value_rest]
    decide

/-- The tail loop of `write_array_value` as a flat map. -/
theorem write_value_rest_eq_flatMap (vs : List Value) :
    write_value_rest vs = vs.flatMap fun v => ',' :: write_value v := by
  induction vs with
  | nil => simp [write_value_rest]
  | cons v rest ih => simp [write_value_rest, ih]

/-- The inline literal rendering rules of `write_value`, arm by arm: `NULL`
for every null variant, `TRUE`/`FALSE` for booleans, plain decimal text for
the integer variants, `write_string_value` for strings, the literal
`'\x7b\x7d'` for the empty array, and `ARRAY [` … `]` with bare-comma
separators for non-empty arrays.  The float arms embed the payload's
formatted text (`floatDisplay`) and are not further characterized, since
that formatting has no faithful model here. -/
theorem write_value_literal_rules :
    (write_value (.bool none) = "NULL".data ∧
     write_value (.tinyInt none) = "NULL".data ∧
     write_value (.smallInt none) = "NULL".data ∧
     write_value (.int none) = "NULL".data ∧
     write_value (.bigInt none) = "NULL".data ∧
     write_value (.tinyUnsigned none) = "NULL".data ∧
     write_value (.smallUnsigned none) = "NULL".data ∧
     write_value (.unsigned none) = "NULL".data ∧
     write_value (.bigUnsigned none) = "NULL".data ∧
     write_value (.float none) = "NULL".data ∧
     write_value (.double none) = "NULL".data ∧
     write_value (.string none) = "NULL".data ∧
     write_value (.array none) = "NULL".data) ∧
    (∀ b, write_value (.bool (some b)) =
      if b then "TRUE".data else "FALSE".data) ∧
    (∀ i, write_value (.tinyInt (some i)) = intDisplay i) ∧
    (∀ i, write_value (.smallInt (some i)) = intDisplay i) ∧
    (∀ i, write_value (.int (some i)) = intDisplay i) ∧
    (∀ i, write_value (.bigInt (some i)) = intDisplay i) ∧
    (∀ u, write_value (.tinyUnsigned (some u)) = natDisplay u) ∧
    (∀ u, write_value (.smallUnsigned (some u)) = natDisplay u) ∧
    (∀ u, write_value (.unsigned (some u)) = natDisplay u) ∧
    (∀ u, write_value (.bigUnsigned (some u)) = natDisplay u) ∧
    (∀ str, write_value (.string (some str)) = write_string_value str) ∧
    (write_value (.array (some [])) = "'\x7b\x7d'".data) ∧
    (∀ v vs, write_value (.array (some (v :: vs))) =
      "ARRAY [".data ++ write_value v ++
        (vs.flatMap fun u => ',' :: write_value u) ++ "]".data) := by
  refine ⟨⟨rfl, rfl, rfl, rfl, rfl, rfl, rfl, rfl, rfl, rfl, rfl, rfl, rfl⟩,
    fun b => rfl, fun i => rfl, fun i => rfl, fun i => rfl, fun i => rfl,
    fun u => rfl, fun u => rfl, fun u => rfl, fun u => rfl,
    fun str => rfl, rfl, fun v vs => ?_⟩
  simp only [write_value, write_array_value, write_value_rest_eq_flatMap]

/-! # C9 — constructor-time contract violations -/

/-- C9: statement construction fails (a Rust panic, modelled as
`Except.error`) exactly on the listed constructor contract violations:
`Insert::values` iff the value arity differs from the declared columns,
`ColumnDef::char`/`varchar` iff the size is zero, `ColumnDef::numeric` iff
scale exceeds precision or precision exceeds 1000, and setting a default on
a generated column (or generating a column that has a default) always; the
rendering path itself is total — `to_sql` always produces a string. -/
theorem c9_construction_panics :
    (∀ (ins : Insert) (vals : List Expr),
      (ins.values vals).isOk = (vals.length == ins.columns.length)) ∧
    (∀ (cd : ColumnDef) (size : Nat),
      (cd.char size).isOk = (size != 0)) ∧
    (∀ (cd : ColumnDef) (size : Nat),
      (cd.varchar size).isOk = (size != 0)) ∧
    (∀ (cd : ColumnDef) (precision scale : Int),
      (cd.numeric precision scale).isOk =
        (decide (scale ≤ precision) && decide (precision ≤ 1000))) ∧
    (∀ (cd : ColumnDef) (e : Expr),
      (cd.default e).isOk = cd.spec.generated.isNone) ∧
    (∀ (cd : ColumnDef) (e : Expr),
      (cd.generated_as_stored e).isOk = cd.spec.default.isNone) ∧
    (∀ (cd : ColumnDef) (e : Expr),
      (cd.generated_as_virtual e).isOk = cd.spec.default.isNone) ∧
    (∀ sel : Select, ∃ out : List Char, sel.to_sql = out) := by
  refine ⟨fun ins vals => ?_, fun cd size => ?_, fun cd size => ?_,
    fun cd precision scale => ?_, fun cd e => ?_, fun cd e => ?_,
    fun cd e => ?_, fun sel => ⟨sel.to_sql, rfl⟩⟩
  · unfold Insert.values
    by_cases h : vals.length = ins.columns.length
    · simp [h, Except.isOk, Except.toBool]
    · simp [h, Except.isOk, Except.toBool]
  · unfold ColumnDef.char
    by_cases h : size = 0
    · simp [h, Except.isOk, Except.toBool]
    · simp [h, Except.isOk, Except.toBool]
  · unfold ColumnDef.varchar
    by_cases h : size = 0
    · simp [h, Except.isOk, Except.toBool]
    · simp [h, Except.isOk, Except.toBool]
  · unfold ColumnDef.numeric
    by_cases h1 : scale > precision
    · have : ¬ scale ≤ precision := not_le.mpr h1
      simp [h1, this, Except.isOk, Except.toBool]
    · have hle : scale ≤ precision := not_lt.mp h1
      by_cases h2 : precision > 1000
      · have : ¬ precision ≤ 1000 := not_le.mpr h2
        simp [h1, h2, this, Except.isOk, Except.toBool]
      · have : precision ≤ 1000 := not_lt.mp h2
        simp [h1, h2, hle, this, Except.isOk, Except.toBool]
  · unfold ColumnDef.default
    by_cases h : cd.spec.generated.isSome
    · simp [h, Except.isOk, Except.toBool, Option.isNone_iff_eq_none]
    · simp [h, Except.isOk, Except.toBool]
      exact Option.not_isSome_iff_eq_none.mp h
  · unfold ColumnDef.generated_as_stored
    by_cases h : cd.spec.default.isSome
    · simp [h, Except.isOk, Except.toBool]
    · simp [h, Except.isOk, Except.toBool]
      exact Option.not_isSome_iff_eq_none.mp h
  · unfold ColumnDef.generated_as_virtual
    by_cases h : cd.spec.default.isSome
    · simp [h, Except.isOk, Except.toBool]
    · simp [h, Except.isOk, Except.toBool]
      exact Option.not_isSome_iff_eq_none.mp h

/-! # Dispatch lemmas for `write_expr` on binary nodes -/

set_option maxHeartbeats 1600000 in
/-- Apart from the empty `IN`/`NOT IN` rewrites, a binary node renders
through `write_binary_expr`. -/
theorem write_expr_binary_eq (lhs : Expr) (op : BinaryOp) (rhs : Expr)
    (h1 : ¬(op = .In ∧ rhs = .tuple []))
    (h2 : ¬(op = .NotIn ∧ rhs = .tuple [])) :
    write_expr (.binary lhs op rhs) = write_binary_expr lhs op rhs := by
  rw [write_expr.eq_def]
  dsimp only
  split
  · exact absurd ⟨rfl, rfl⟩ h1
  · exact absurd ⟨rfl, rfl⟩ h2
  · rfl

/-- `left_assoc_same_op` on a binary left child. -/
theorem left_assoc_same_op_binary (a b : Expr) (op2 op : BinaryOp) :
    left_assoc_same_op (.binary a op2 b) op =
      (op2 == op && well_known_left_associative op) := rfl

/-- `is_and_pair` on a binary node tests the operator. -/
theorem is_and_pair_binary (b c : Expr) (op : BinaryOp) :
    is_and_pair (.binary b op c) = (op == .And) := by
  cases op <;> rfl

/-! # C4 — empty `IN`/`NOT IN` tuples render as tautologies -/

/-- C4: `is_in []` builds `Binary(_, In, Tuple([]))`, `is_not_in []` builds
`Binary(_, NotIn, Tuple([]))`, and every such node is rewritten at render
time — before any parenthesization logic — to `1 = 2` (empty `IN`) or
`1 = 1` (empty `NOT IN`), whatever the left operand. -/
theorem c4_empty_in_tautology :
    (∀ e : Expr, e.is_in [] = .binary e .In (.tuple []) ∧
      e.is_not_in [] = .binary e .NotIn (.tuple [])) ∧
    (∀ e : Expr, write_expr (.binary e .In (.tuple [])) =
      write_binary_expr (.value (.int (some 1))) .Equal (.value (.int (some 2)))) ∧
    (∀ e : Expr, write_expr (.binary e .NotIn (.tuple [])) =
      write_binary_expr (.value (.int (some 1))) .Equal (.value (.int (some 1)))) ∧
    (∀ e : Expr, expr_inline (.binary e .In (.tuple [])) = "1 = 2".data) ∧
    (∀ e : Expr, expr_inline (.binary e .NotIn (.tuple [])) = "1 = 1".data) := by
  have hin : ∀ e : Expr, write_expr (.binary e .In (.tuple [])) =
      write_binary_expr (.value (.int (some 1))) .Equal (.value (.int (some 2))) := by
    intro e
    rw [write_expr.eq_def]
  have hnotin : ∀ e : Expr, write_expr (.binary e .NotIn (.tuple [])) =
      write_binary_expr (.value (.int (some 1))) .Equal (.value (.int (some 1))) := by
    intro e
    rw [write_expr.eq_def]
  refine ⟨fun e => ⟨rfl, rfl⟩, hin, hnotin, fun e => ?_, fun e => ?_⟩
  · rw [expr_inline, hin e]
    simp only [write_binary_expr, write_binary_lhs, write_binary_rhs,
      well_known_no_parentheses, well_known_high_precedence,
      write_binary_op, write_value_param, fs, write_expr]
    decide
  · rw [expr_inline, hnotin e]
    simp only [write_binary_expr, write_binary_lhs, write_binary_rhs,
      well_known_no_parentheses, well_known_high_precedence,
      write_binary_op, write_value_param, fs, write_expr]
    decide

/-! # C5 — BETWEEN shape and right-child parenthesis elision -/

/-- C5: `between`/`not_between` build exactly
`Binary(self, Between|NotBetween, Binary(a, And, b))`, and rendering any
such node prints the right child without parentheses, giving
`<lhs> BETWEEN <a> AND <b>`; concretely `col.between(3, 5)` renders as
`"col" BETWEEN 3 AND 5`. -/
theorem c5_between_no_right_parens :
    (∀ e a b : Expr, e.between a b = .binary e .Between (.binary a .And b) ∧
      e.not_between a b = .binary e .NotBetween (.binary a .And b)) ∧
    (∀ lhs a b : Expr, write_expr (.binary lhs .Between (.binary a .And b)) =
      write_binary_lhs lhs .Between ++ fs [' '] ++ fs "BETWEEN".data ++
        fs [' '] ++ write_expr (.binary a .And b)) ∧
    (∀ lhs a b : Expr, write_expr (.binary lhs .NotBetween (.binary a .And b)) =
      write_binary_lhs lhs .NotBetween ++ fs [' '] ++ fs "NOT BETWEEN".data ++
        fs [' '] ++ write_expr (.binary a .And b)) ∧
    (expr_inline ((Expr.column (.column ⟨none, Iden.new "col".data⟩)).between
        (.value (.int (some 3))) (.value (.int (some 5)))) =
      ('"' :: "col".data ++ ['"'] ++ " BETWEEN 3 AND 5".data)) := by
  have hrhs : ∀ (a b : Expr) (op : BinaryOp), (Operator.binary op).is_between = true →
      write_binary_rhs (.binary a .And b) op = write_expr (.binary a .And b) := by
    intro a b op hop
    rw [write_binary_rhs]
    simp only [well_known_no_parentheses, well_known_high_precedence,
      Operator.is_arithmetic, Operator.is_shift, Operator.is_comparison,
      Operator.is_in, Operator.is_like, Operator.is_is, hop,
      is_and_pair_binary]
    simp
  have hbetween : ∀ lhs a b : Expr,
      write_expr (.binary lhs .Between (.binary a .And b)) =
        write_binary_lhs lhs .Between ++ fs [' '] ++ fs "BETWEEN".data ++
          fs [' '] ++ write_expr (.binary a .And b) := by
    intro lhs a b
    rw [write_expr_binary_eq lhs .Between (.binary a .And b) (by simp) (by simp)]
    rw [write_binary_expr, hrhs a b .Between rfl]
    simp [write_binary_op]
  have hnotbetween : ∀ lhs a b : Expr,
      write_expr (.binary lhs .NotBetween (.binary a .And b)) =
        write_binary_lhs lhs .NotBetween ++ fs [' '] ++ fs "NOT BETWEEN".data ++
          fs [' '] ++ write_expr (.binary a .And b) := by
    intro lhs a b
    rw [write_expr_binary_eq lhs .NotBetween (.binary a .And b) (by simp) (by simp)]
    rw [write_binary_expr, hrhs a b .NotBetween rfl]
    simp [write_binary_op]
  refine ⟨fun e a b => ⟨rfl, rfl⟩, hbetween, hnotbetween, ?_⟩
  rw [Expr.between, Expr.mkBinary, expr_inline, hbetween]
  simp only [write_binary_lhs, well_known_no_parentheses,
    well_known_high_precedence, write_column_ref, write_iden, Iden.new,
    is_escaped_iden, fs, write_value_param]
  rw [write_expr_binary_eq _ .And _ (by simp) (by simp)]
  simp only [write_binary_expr, write_binary_lhs, write_binary_rhs,
    well_known_no_parentheses, well_known_high_precedence, write_binary_op,
    write_value_param, fs, write_expr]
  simp only [render_inline, render_frag_inline, List.flatMap]
  decide

/-! # C6 — left-associativity elision -/

/-- An inner operator identical to the outer one is never classified as
higher precedence. -/
theorem high_prec_same_op (l r : Expr) (op : BinaryOp) :
    well_known_high_precedence (.binary l op r) (.binary op) = false := by
  cases op <;>
    simp [well_known_high_precedence, Operator.is_arithmetic,
      Operator.is_shift, Operator.is_comparison, Operator.is_in,
      Operator.is_like, Operator.is_is, Operator.is_between,
      Operator.is_logical]

/-- C6: for `AND, OR, ADD, SUB, MUL, DIV` — and exactly those six — a left
child with the identical operator loses its parentheses, while any other
operator keeps them; a right child with the identical operator is always
parenthesized. -/
theorem c6_left_associativity_elision :
    (∀ op : BinaryOp, well_known_left_associative op =
      (op == .And || op == .Or || op == .Add || op == .Sub ||
        op == .Mul || op == .Div)) ∧
    (∀ (a b c : Expr) (op : BinaryOp), well_known_left_associative op = true →
      write_binary_expr (.binary a op b) op c =
        write_expr (.binary a op b) ++ fs [' '] ++ fs (write_binary_op op) ++
          fs [' '] ++ write_binary_rhs c op) ∧
    (∀ (a b c : Expr) (op : BinaryOp), well_known_left_associative op = false →
      write_binary_expr (.binary a op b) op c =
        (fs ['('] ++ write_expr (.binary a op b) ++ fs [')']) ++ fs [' '] ++
          fs (write_binary_op op) ++ fs [' '] ++ write_binary_rhs c op) ∧
    (∀ (a b c : Expr) (op : BinaryOp),
      write_binary_expr a op (.binary b op c) =
        write_binary_lhs a op ++ fs [' '] ++ fs (write_binary_op op) ++
          fs [' '] ++ (fs ['('] ++ write_expr (.binary b op c) ++ fs [')'])) := by
  have hlhs_elide : ∀ (a b : Expr) (op : BinaryOp),
      well_known_left_associative op = true →
      write_binary_lhs (.binary a op b) op = write_expr (.binary a op b) := by
    intro a b op h
    rw [write_binary_lhs]
    simp [well_known_no_parentheses, high_prec_same_op,
      left_assoc_same_op_binary, h]
  have hlhs_keep : ∀ (a b : Expr) (op : BinaryOp),
      well_known_left_associative op = false →
      write_binary_lhs (.binary a op b) op =
        fs ['('] ++ write_expr (.binary a op b) ++ fs [')'] := by
    intro a b op h
    rw [write_binary_lhs]
    simp [well_known_no_parentheses, high_prec_same_op,
      left_assoc_same_op_binary, h]
  have hrhs : ∀ (b c : Expr) (op : BinaryOp),
      write_binary_rhs (.binary b op c) op =
        fs ['('] ++ write_expr (.binary b op c) ++ fs [')'] := by
    intro b c op
    rw [write_binary_rhs]
    cases op <;>
      simp [well_known_no_parentheses, high_prec_same_op,
        Operator.is_between, is_and_pair_binary]
  refine ⟨fun op => by cases op <;> rfl, fun a b c op h => ?_,
    fun a b c op h => ?_, fun a b c op => ?_⟩
  · rw [write_binary_expr, hlhs_elide a b op h]
  · rw [write_binary_expr, hlhs_keep a b op h]
  · rw [write_binary_expr, hrhs b c op]

/-- C6 witness: the elision at `ADD` and its absence at `MOD`, on concrete
columns. -/
theorem c6_left_associativity_elision_witness :
    (well_known_left_associative .Add = true ∧
      write_binary_expr
          (.binary (.column (.column ⟨none, Iden.new "a".data⟩)) .Add
            (.column (.column ⟨none, Iden.new "b".data⟩))) .Add
          (.column (.column ⟨none, Iden.new "c".data⟩)) =
        write_expr (.binary (.column (.column ⟨none, Iden.new "a".data⟩)) .Add
            (.column (.column ⟨none, Iden.new "b".data⟩))) ++
          fs [' '] ++ fs (write_binary_op .Add) ++ fs [' '] ++
          write_binary_rhs (.column (.column ⟨none, Iden.new "c".data⟩)) .Add) ∧
    (well_known_left_associative .Mod = false ∧
      write_binary_expr
          (.binary (.column (.column ⟨none, Iden.new "a".data⟩)) .Mod
            (.column (.column ⟨none, Iden.new "b".data⟩))) .Mod
          (.column (.column ⟨none, Iden.new "c".data⟩)) =
        (fs ['('] ++ write_expr (.binary (.column (.column ⟨none, Iden.new "a".data⟩)) .Mod
            (.column (.column ⟨none, Iden.new "b".data⟩))) ++ fs [')']) ++
          fs [' '] ++ fs (write_binary_op .Mod) ++ fs [' '] ++
          write_binary_rhs (.column (.column ⟨none, Iden.new "c".data⟩)) .Mod) :=
  ⟨⟨rfl, c6_left_associativity_elision.2.1 _ _ _ .Add rfl⟩,
   ⟨rfl, c6_left_associativity_elision.2.2.1 _ _ _ .Mod rfl⟩⟩

/-! # C1 — precedence classes and parenthesization -/

/-- Arithmetic (`* / % + -`) and bit-shift (`<< >>`) operators. -/
def arithmetic_or_shift_class : BinaryOp → Bool
  | .Mul | .Div | .Mod | .Add | .Sub | .LShift | .RShift => true
  | _ => false

/-- The outer operators under which the source leaves an arithmetic/shift
child unparenthesized: comparison, `BETWEEN`-ish, `IN`-ish, `LIKE`-ish and
logical — but not `IS`/`IS NOT`. -/
def outer_below_arithmetic_class : BinaryOp → Bool
  | .Equal | .NotEqual | .LessThan | .LessThanOrEqual | .GreaterThan
  | .GreaterThanOrEqual | .Between | .NotBetween | .In | .NotIn
  | .Like | .NotLike | .And | .Or => true
  | _ => false

/-- The inner operators the source treats as binding tighter than logical:
comparison, `IN`-ish, `LIKE`-ish and `IS`-ish — but not
`BETWEEN`/`NOT BETWEEN`. -/
def comparison_in_like_is_class : BinaryOp → Bool
  | .Equal | .NotEqual | .LessThan | .LessThanOrEqual | .GreaterThan
  | .GreaterThanOrEqual | .In | .NotIn | .Like | .NotLike
  | .Is | .IsNot => true
  | _ => false

/-- The logical binary operators. -/
def logical_binary_class : BinaryOp → Bool
  | .And | .Or => true
  | _ => false

/-- C1 counterexample: the claim predicts that an arithmetic child under an
`IS`/`IS NOT` parent is printed without parentheses (arithmetic is in the
strictly higher class); the code parenthesizes it:
`("x" + "y") IS NULL`, not `"x" + "y" IS NULL`. -/
theorem c1_counterexample :
    expr_inline (.binary
        (.binary (.column (.column ⟨none, Iden.new "x".data⟩)) .Add
          (.column (.column ⟨none, Iden.new "y".data⟩))) .Is
        (.keyword .Null)) =
      ('(' :: '"' :: "x".data ++ ['"'] ++ " + ".data ++
        '"' :: "y".data ++ ['"'] ++ ") IS NULL".data) ∧
    expr_inline (.binary
        (.binary (.column (.column ⟨none, Iden.new "x".data⟩)) .Add
          (.column (.column ⟨none, Iden.new "y".data⟩))) .Is
        (.keyword .Null)) ≠
      ('"' :: "x".data ++ ['"'] ++ " + ".data ++
        '"' :: "y".data ++ ['"'] ++ " IS NULL".data) := by
  have hrender : expr_inline (.binary
      (.binary (.column (.column ⟨none, Iden.new "x".data⟩)) .Add
        (.column (.column ⟨none, Iden.new "y".data⟩))) .Is
      (.keyword .Null)) =
      ('(' :: '"' :: "x".data ++ ['"'] ++ " + ".data ++
        '"' :: "y".data ++ ['"'] ++ ") IS NULL".data) := by
    rw [expr_inline, write_expr_binary_eq _ .Is _ (by simp) (by simp)]
    rw [write_binary_expr, write_binary_lhs, write_binary_rhs]
    rw [write_expr_binary_eq _ .Add _ (by simp) (by simp)]
    rw [write_binary_expr, write_binary_lhs, write_binary_rhs]
    simp only [well_known_no_parentheses, well_known_high_precedence,
      Operator.is_arithmetic, Operator.is_shift, Operator.is_comparison,
      Operator.is_in, Operator.is_like, Operator.is_is, Operator.is_between,
      Operator.is_logical, left_assoc_same_op_binary, left_assoc_same_op,
      is_and_pair, write_binary_op, write_column_ref, write_iden, Iden.new,
      is_escaped_iden, fs, write_expr]
    simp only [render_inline, render_frag_inline, List.flatMap]
    decide
  refine ⟨hrender, ?_⟩
  rw [hrender]
  decide

/-- C1 amended: a `Binary` child is parenthesized unless
`well_known_high_precedence` holds, and that predicate is true exactly when
the child operator is arithmetic/shift and the parent is comparison-,
`BETWEEN`-, `IN`-, `LIKE`-like or logical (but NOT `IS`/`IS NOT`), or the
child operator is comparison-, `IN`-, `LIKE`- or `IS`-like (but NOT
`BETWEEN`/`NOT BETWEEN`) and the parent is logical — modulo the separate
left-associativity and `BETWEEN` right-child elisions, which the second and
third conjuncts account for. -/
theorem c1_amended_precedence_classes :
    (∀ (l r : Expr) (inner outer : BinaryOp),
      well_known_high_precedence (.binary l inner r) (.binary outer) =
        (arithmetic_or_shift_class inner && outer_below_arithmetic_class outer ||
         comparison_in_like_is_class inner && logical_binary_class outer)) ∧
    (∀ (child : Expr) (op : BinaryOp),
      write_binary_lhs child op =
        if (well_known_no_parentheses child ||
            well_known_high_precedence child (.binary op) ||
            left_assoc_same_op child op) = true
        then write_expr child
        else fs ['('] ++ write_expr child ++ fs [')']) ∧
    (∀ (child : Expr) (op : BinaryOp),
      write_binary_rhs child op =
        if (well_known_no_parentheses child ||
            well_known_high_precedence child (.binary op) ||
            ((Operator.binary op).is_between && is_and_pair child)) = true
        then write_expr child
        else fs ['('] ++ write_expr child ++ fs [')']) := by
  refine ⟨fun l r inner outer => ?_, fun child op => ?_, fun child op => ?_⟩
  · cases inner <;> cases outer <;> rfl
  · rw [write_binary_lhs]
    cases h1 : well_known_no_parentheses child <;>
      cases h2 : well_known_high_precedence child (.binary op) <;>
      cases h3 : left_assoc_same_op child op <;>
      simp [h1, h2, h3]
  · rw [write_binary_rhs]
    cases h1 : well_known_no_parentheses child <;>
      cases h2 : well_known_high_precedence child (.binary op) <;>
      cases h3 : ((Operator.binary op).is_between && is_and_pair child) <;>
      simp [h1, h2, h3]

/-! # C3 — placeholder/value correspondence of `to_values` -/

/-- Split a fragment stream into the text pieces between parameters and the
emitted parameters, in order (`n` parameters give `n + 1` text pieces). -/
def split_frags : List Frag → List (List Char) × List Value
  | [] => ([[]], [])
  | .str s :: rest =>
    match split_frags rest with
    | (t :: ts, vs) => ((s ++ t) :: ts, vs)
    | ([], vs) => ([s], vs)
  | .param v :: rest =>
    let r := split_frags rest
    ([] :: r.1, v :: r.2)

/-- Interleave text pieces with rendered parameter slots. -/
def join_with : List (List Char) → List (List Char) → List Char
  | [], _ => []
  | t :: ts, [] => t ++ join_with ts []
  | t :: ts, s :: ss => t ++ s ++ join_with ts ss

/-- The texts `$k+1, $k+2, …, $k+n` of `n` successive placeholders. -/
def placeholders_from : Nat → Nat → List (List Char)
  | _, 0 => []
  | k, n + 1 => ('$' :: natDisplay (k + 1)) :: placeholders_from (k + 1) n

/-- `split_frags` always produces at least one text piece. -/
theorem split_frags_fst_ne_nil (fr : List Frag) : (split_frags fr).1 ≠ [] := by
  induction fr with
  | nil => simp [split_frags]
  | cons f rest ih =>
    cases f with
    | str s =>
      rw [split_frags]
      rcases h : split_frags rest with ⟨ts, vs⟩
      cases ts with
      | nil => simp
      | cons t ts2 => simp
    | param v => simp [split_frags]

/-- A prefix on the first text piece is a prefix of the joined text. -/
theorem join_with_prepend (a b : List Char) (ts ss : List (List Char)) :
    join_with ((a ++ b) :: ts) ss = a ++ join_with (b :: ts) ss := by
  cases ss <;> simp [join_with]

/-- Inline rendering is the join of the text pieces with the literal
renderings of the parameters. -/
theorem render_inline_split (fr : List Frag) :
    render_inline fr =
      join_with (split_frags fr).1 ((split_frags fr).2.map write_value) := by
  induction fr with
  | nil => rfl
  | cons f rest ih =>
    cases f with
    | str s1 =>
      have hne := split_frags_fst_ne_nil rest
      rcases h : split_frags rest with ⟨ts, vs⟩
      rw [h] at ih hne
      cases ts with
      | nil => exact absurd rfl hne
      | cons t ts2 =>
        rw [render_inline, List.flatMap_cons, split_frags, h]
        simp only [render_frag_inline]
        rw [join_with_prepend]
        rw [← ih]
        rfl
    | param v =>
      rcases h : split_frags rest with ⟨ts, vs⟩
      rw [h] at ih
      rw [render_inline, List.flatMap_cons, split_frags, h]
      simp only [render_frag_inline, List.map_cons, join_with]
      rw [← ih]
      simp [render_inline]

/-- Folding a fragment stream through the parameterized writer from any
start state: the text pieces are joined with the placeholders numbered from
the incoming counter, the parameters are appended in emission order, and
the counter advances by their number. -/
theorem render_values_split (fr : List Frag) : ∀ w : SqlWriterValues,
    fr.foldl SqlWriterValues.push_frag w =
      { sql := w.sql ++ join_with (split_frags fr).1
          (placeholders_from w.counter (split_frags fr).2.length),
        counter := w.counter + (split_frags fr).2.length,
        params := w.params ++ (split_frags fr).2 } := by
  induction fr with
  | nil =>
    intro w
    simp [split_frags, join_with, placeholders_from]
  | cons f rest ih =>
    intro w
    cases f with
    | str s1 =>
      have hne := split_frags_fst_ne_nil rest
      rcases h : split_frags rest with ⟨ts, vs⟩
      rw [h] at hne
      cases ts with
      | nil => exact absurd rfl hne
      | cons t ts2 =>
        rw [List.foldl_cons, ih]
        rw [split_frags, h]
        simp only [SqlWriterValues.push_frag]
        rw [join_with_prepend]
        simp [List.append_assoc]
    | param v =>
      rcases h : split_frags rest with ⟨ts, vs⟩
      rw [List.foldl_cons, ih]
      rw [split_frags, h]
      simp only [SqlWriterValues.push_frag, SqlWriterValues.push_param,
        List.length_cons, placeholders_from, join_with,
        SqlWriterValues.mk.injEq]
      refine ⟨by simp, by omega, by simp⟩

/-- C3: `to_values` produces the placeholders `$1, $2, …` strictly
increasing in left-to-right emission order, one per parameter emission;
the placeholder `$N` corresponds to element `N-1` (0-based) of the
returned value list; and the non-parameter text pieces are byte-identical
to the `to_sql` output, which interleaves the same pieces with the inline
literals instead. -/
theorem c3_to_values_placeholder_contract (sel : Select) :
    sel.to_sql = join_with (split_frags (write_select sel)).1
        ((split_frags (write_select sel)).2.map write_value) ∧
    (sel.to_values).sql = join_with (split_frags (write_select sel)).1
        (placeholders_from 0 (split_frags (write_select sel)).2.length) ∧
    (sel.to_values).params = (split_frags (write_select sel)).2 ∧
    (sel.to_values).counter = (split_frags (write_select sel)).2.length := by
  have h := render_values_split (write_select sel) SqlWriterValues.new
  refine ⟨render_inline_split (write_select sel), ?_, ?_, ?_⟩ <;>
    rw [Select.to_values, render_values, h] <;>
    simp [SqlWriterValues.new]

end Pqb
